import Mathlib

/-!
# Verification of the jupyter-ai MCP frontend client

Shallow embedding of the MCP (Model Context Protocol) client logic of the
`jupyter-ai` frontend extension, and proofs of the specification's claims
about it.

Embedded source files:
* `src/handler.ts` — the transport adapter `requestAPI` and the memoized
  availability probe `checkMcpAvailability` with its module-level cache
  `_hasMcp`;
* `src/services/mcp-service.ts` — `McpService.getServers`, `getCommands`,
  `executeCommand`;
* the autocompletion catalog builder (`autocompletion.commands`);
* the `McpSettings` React component (retry loop and timer cleanup).

Effects are made explicit: network outcomes are passed in as values, the
module-level cache is threaded as state, and the React component is a state
machine over an explicit timer world.
-/

/-- A JSON value, as produced by a successful `JSON.parse`. -/
inductive JsonVal where
  | null : JsonVal
  | bool (b : Bool) : JsonVal
  | num (n : Int) : JsonVal
  | str (s : String) : JsonVal
  | arr (xs : List JsonVal) : JsonVal
  | obj (fields : List (String × JsonVal)) : JsonVal
deriving Repr

/-- The runtime value of the `data` variable in `requestAPI`: either the raw
response text (when the body is empty or `JSON.parse` failed) or the parsed
JSON value. -/
inductive DataVal where
  | text (s : String) : DataVal
  | json (j : JsonVal) : DataVal
deriving Repr

/-- JavaScript truthiness of a JSON value (`Boolean(v)`): `null`, `false`,
`0` and `""` are falsy; every object and array is truthy. -/
def jsTruthy : JsonVal → Bool
  | .null => false
  | .bool b => b
  | .num n => n != 0
  | .str s => s != ""
  | .arr _ => true
  | .obj _ => true

mutual
/-- JavaScript string coercion (`String(v)`) of a JSON value. -/
def jsonToString : JsonVal → String
  | .null => "null"
  | .bool b => if b then "true" else "false"
  | .num n => toString n
  | .str s => s
  | .arr xs => String.intercalate "," (jsonListToStrings xs)
  | .obj _ => "[object Object]"

/-- String coercion of each element of a JSON array. -/
def jsonListToStrings : List JsonVal → List String
  | [] => []
  | x :: xs => jsonToString x :: jsonListToStrings xs
end

/-- JavaScript string coercion of a `data` value. -/
def jsStringOf : DataVal → String
  | .text s => s
  | .json j => jsonToString j

/-- Property access `v.message` on the runtime `data` value: defined only
when `data` is a parsed JSON object having a `message` field. -/
def messageField : DataVal → Option JsonVal
  | .json (.obj fields) => (fields.find? (fun kv => kv.1 == "message")).map (·.2)
  | _ => none

/-- The JavaScript expression `data.message || data` used by `requestAPI`
when constructing a `ResponseError`: the `message` field when present and
truthy, otherwise the whole `data` value. -/
def errPayload (data : DataVal) : DataVal :=
  match messageField data with
  | some m => if jsTruthy m then .json m else data
  | none => data

/-- An HTTP response as observed by `requestAPI`: the success flag and status
of the response, the body text, and the result of `JSON.parse` on that body
(`none` models a parse failure). -/
structure HttpResponse where
  ok : Bool
  status : Nat
  body : String
  parsed : Option JsonVal
deriving Repr

/-- The outcome of `ServerConnection.makeRequest`: either the connection
attempt throws (no response received) or an HTTP response arrives. -/
inductive FetchOutcome where
  | thrown (msg : String) : FetchOutcome
  | response (r : HttpResponse) : FetchOutcome
deriving Repr

/-- The errors `requestAPI` can raise: `ServerConnection.NetworkError`
(wrapping the thrown connection error) or `ServerConnection.ResponseError`
(carrying the response status and the `data.message || data` payload). -/
inductive ReqError where
  | networkError (message : String) : ReqError
  | responseError (status : Nat) (payload : DataVal) : ReqError
deriving Repr

/-- `error.message` of a `ReqError` (both error classes are `Error`
instances in the source; a `ResponseError`'s message is the string coercion
of the payload passed to its constructor). -/
def errorMessage : ReqError → String
  | .networkError m => m
  | .responseError _ payload => jsStringOf payload

/-- Embedding of `requestAPI` (src/handler.ts, lines 17–47): wrap a thrown
connection error in `NetworkError`; read the body as text; if non-empty, try
to parse it as JSON, silently keeping the raw text on parse failure; throw
`ResponseError(status, data.message || data)` on a non-ok response; return
`data` otherwise. -/
def requestAPI (outcome : FetchOutcome) : Except ReqError DataVal :=
  match outcome with
  | .thrown msg => .error (.networkError msg)
  | .response r =>
    let data : DataVal :=
      if r.body.length > 0 then
        match r.parsed with
        | some j => .json j
        | none => .text r.body
      else .text r.body
    if !r.ok then
      .error (.responseError r.status (errPayload data))
    else
      .ok data

/-! ## Availability cache (`checkMcpAvailability`, src/handler.ts lines 54–86)

The module-level cell `_hasMcp : boolean | null` is threaded explicitly as an
`Option Bool`. The probe is the outcome of `requestAPI('mcp/servers')`,
passed in as a value. -/

/-- The observable behaviour of one call to `checkMcpAvailability`: the
returned boolean, the value of `_hasMcp` after the call, and whether the call
issued a network request. -/
structure McpCheck where
  result : Bool
  newState : Option Bool
  madeRequest : Bool
deriving Repr, DecidableEq

/-- Embedding of `checkMcpAvailability`: if `_hasMcp` is non-null, return it
without a request. Otherwise probe `mcp/servers`; a `ResponseError` with
status 404 records and returns `false`; a success, a `NetworkError`, and any
other error record and return `true`. -/
def checkMcpAvailability (hasMcp : Option Bool) (probe : Except ReqError DataVal) :
    McpCheck :=
  match hasMcp with
  | some b => ⟨b, some b, false⟩
  | none =>
    match probe with
    | .ok _ => ⟨true, some true, true⟩
    | .error e =>
      match e with
      | .responseError status _ =>
        if status = 404 then ⟨false, some false, true⟩ else ⟨true, some true, true⟩
      | .networkError _ => ⟨true, some true, true⟩

/-- A sequence of calls to `checkMcpAvailability`, starting from cache state
`hasMcp`, the i-th call seeing probe outcome `probes[i]` if it probes at
all. Returns the list of returned booleans, the final cache state, and the
total number of network requests issued. -/
def runChecks (hasMcp : Option Bool) (probes : List (Except ReqError DataVal)) :
    List Bool × Option Bool × Nat :=
  match probes with
  | [] => ([], hasMcp, 0)
  | p :: ps =>
    let c := checkMcpAvailability hasMcp p
    let rest := runChecks c.newState ps
    (c.result :: rest.1, rest.2.1, rest.2.2 + (if c.madeRequest then 1 else 0))

/-! ## MCP service (`src/services/mcp-service.ts`) -/

/-- The errors the MCP service can raise: the distinguished
`Error('MCP not available')` synthesized on a detected 404, or the original
transport error re-thrown. -/
inductive McpServiceError where
  | mcpNotAvailable : McpServiceError
  | orig (e : ReqError) : McpServiceError
deriving Repr

/-- The source's 404 detection: `error instanceof Error && 'response' in
error && (error as any).response?.status === 404`. Only a `ResponseError`
carries a `response` property. -/
def is404Error : ReqError → Bool
  | .responseError status _ => status == 404
  | .networkError _ => false

/-- Embedding of `McpService.getServers` (lines 15–37): on success, return
the response if it is an array and `[]` otherwise; on a 404 failure throw
`Error('MCP not available')`; on any other failure re-throw the original
error. `res` is the outcome of `requestAPI('mcp/servers')`. -/
def getServers (res : Except ReqError DataVal) : Except McpServiceError (List JsonVal) :=
  match res with
  | .ok response =>
    .ok (match response with
         | .json (.arr xs) => xs
         | _ => [])
  | .error e =>
    if is404Error e then .error .mcpNotAvailable else .error (.orig e)

/-- Embedding of `McpService.getCommands` (lines 42–64): identical policy to
`getServers`, against `requestAPI('mcp/commands')`. -/
def getCommands (res : Except ReqError DataVal) : Except McpServiceError (List JsonVal) :=
  match res with
  | .ok response =>
    .ok (match response with
         | .json (.arr xs) => xs
         | _ => [])
  | .error e =>
    if is404Error e then .error .mcpNotAvailable else .error (.orig e)

/-- Embedding of `McpService.executeCommand` (lines 90–110): on success,
return the backend's response unchanged; on any failure return the
synthesized object `{type: 'text', content: 'Error executing command: ' +
message}` instead of throwing. `res` is the outcome of the POST to
`mcp/execute`. -/
def executeCommand (res : Except ReqError DataVal) : DataVal :=
  match res with
  | .ok response => response
  | .error e =>
    .json (.obj [("type", .str "text"),
                 ("content", .str ("Error executing command: " ++ errorMessage e))])

/-! ## Autocompletion catalog builder (`autocompletion.commands`) -/

/-- A static slash command entry as returned by
`AiService.listSlashCommands` (`slash_commands` array elements). -/
structure ListSlashCommandsEntry where
  slash_id : String
  description : String
deriving Repr, DecidableEq

/-- An MCP command entry as returned by `McpService.getCommands`
(interface `IMcpCommand`). A missing `description` in the backend payload is
modelled as `""`, which is exactly what the source's `||` fallback tests
for (both `undefined` and `""` are falsy). -/
structure IMcpCommand where
  serverName : String
  commandName : String
  description : String
  serverStatus : String
deriving Repr, DecidableEq

/-- An autocomplete option (`SlashCommandOption` in the source). -/
structure SlashCommandOption where
  id : String
  label : String
  description : String
deriving Repr, DecidableEq

/-- The mapping of a static slash command to an autocomplete option
(`slashCommands.map(...)` in `autocompletion.commands`). -/
def standardOption (c : ListSlashCommandsEntry) : SlashCommandOption :=
  ⟨c.slash_id, "/" ++ c.slash_id ++ " ", c.description⟩

/-- The mapping of an MCP command to an autocomplete option
(`mcpCommands.map(...)`): id and label come from `serverName`, and the
description falls back to `"MCP Server: " + serverName` when falsy. -/
def mcpOption (c : IMcpCommand) : SlashCommandOption :=
  ⟨c.serverName, "/" ++ c.serverName ++ " ",
   if c.description = "" then "MCP Server: " ++ c.serverName else c.description⟩

/-- Embedding of the `autocompletion.commands` async function: fetch the
static slash commands outside any try block (failure propagates); inside a
try block check MCP availability and, when available, fetch and append the
MCP commands; any failure inside the try block is caught and the static list
returned. The three network outcomes are passed in as values. -/
def commandsCatalog (staticRes : Except ReqError (List ListSlashCommandsEntry))
    (availRes : Except ReqError Bool)
    (mcpRes : Except McpServiceError (List IMcpCommand)) :
    Except ReqError (List SlashCommandOption) :=
  match staticRes with
  | .error e => .error e
  | .ok slashCommands =>
    let standardCommands := slashCommands.map standardOption
    match availRes with
    | .error _ => .ok standardCommands
    | .ok checkMcpAvailable =>
      if checkMcpAvailable then
        match mcpRes with
        | .error _ => .ok standardCommands
        | .ok mcpCommands => .ok (standardCommands ++ mcpCommands.map mcpOption)
      else
        .ok standardCommands

/-- The catalog as the specification describes it: the static commands, each
with label `"/" + id + " "`, followed — only when MCP is available — by the
MCP commands, each with id `serverName`, label `"/" + serverName + " "`, and
description falling back to `"MCP Server: " + serverName`; each group in
listing-received order, no re-sorting, no deduplication. Stated separately
from `commandsCatalog` (which follows the source's control flow) so the two
can be compared. -/
def catalogSpec (statics : List ListSlashCommandsEntry) (avail : Bool)
    (mcps : List IMcpCommand) : List SlashCommandOption :=
  statics.map (fun c => ⟨c.slash_id, "/" ++ c.slash_id ++ " ", c.description⟩) ++
  if avail then
    mcps.map (fun c => ⟨c.serverName, "/" ++ c.serverName ++ " ",
      if c.description = "" then "MCP Server: " ++ c.serverName else c.description⟩)
  else []

/-! ## The `McpSettings` view component (retry variant)

State machine for the React component: `useState` cells, the browser timer
table, and React effect semantics made explicit. The `useEffect` has an empty
dependency array, so its body runs exactly once after mount; the
`fetchServers` closure created there permanently captures the `retryCount`
binding of the first render (value `0`), while `setRetryCount` updates the
actual state cell. The model carries both: `retryCount` is the cell,
`captured` is the closure's binding. -/

/-- The browser timer table: a fresh id per `setTimeout`, and the ids of
scheduled timers that have neither fired nor been cleared. -/
structure TimerWorld where
  nextId : Nat
  pending : List Nat
deriving Repr, DecidableEq

/-- `setTimeout(cb, delay)`: allocate a timer id and schedule it. -/
def timerSet (w : TimerWorld) : Nat × TimerWorld :=
  (w.nextId, ⟨w.nextId + 1, w.pending ++ [w.nextId]⟩)

/-- `clearTimeout(id)`: remove the timer if still pending (a no-op for a
timer that already fired). -/
def timerClear (w : TimerWorld) (i : Nat) : TimerWorld :=
  ⟨w.nextId, w.pending.filter (fun j => j ≠ i)⟩

/-- The full state of a mounted `McpSettings` component. `cleanupId` is the
`timer` variable captured by the effect's cleanup closure; `captured` is the
`retryCount` binding captured by `fetchServers`; `updatesAfterDispose`
counts `setXxx` calls made after the component was torn down; `attempts`
counts invocations of `fetchServers`. -/
structure ViewWorld where
  timers : TimerWorld
  cleanupId : Nat
  servers : List JsonVal
  isLoading : Bool
  error : Option String
  retryCount : Nat
  captured : Nat
  disposed : Bool
  updatesAfterDispose : Nat
  attempts : Nat
deriving Repr

/-- A React state setter called after teardown still runs; the model records
it as a post-disposal update. -/
def recordUpdate (w : ViewWorld) : ViewWorld :=
  if w.disposed then { w with updatesAfterDispose := w.updatesAfterDispose + 1 } else w

/-- `setServers(xs)`. -/
def setServersState (w : ViewWorld) (xs : List JsonVal) : ViewWorld :=
  recordUpdate { w with servers := xs }

/-- `setIsLoading(b)`. -/
def setIsLoadingState (w : ViewWorld) (b : Bool) : ViewWorld :=
  recordUpdate { w with isLoading := b }

/-- `setError(e)`. -/
def setErrorState (w : ViewWorld) (e : Option String) : ViewWorld :=
  recordUpdate { w with error := e }

/-- `setRetryCount(prev => prev + 1)` — a functional update on the cell. -/
def setRetryCountState (w : ViewWorld) (n : Nat) : ViewWorld :=
  recordUpdate { w with retryCount := n }

/-- The intermediate message set while a retry is scheduled. -/
def loadingMessage : String := "Loading MCP servers, please wait..."

/-- The terminal message set after the retry budget is exhausted. -/
def terminalMessage : String :=
  "Failed to load MCP servers. Make sure MCP servers are properly configured and restart JupyterLab if needed."

/-- Embedding of one invocation of the `fetchServers` closure (part_000,
lines 34–64), with `result` the outcome of `mcpService.getServers()`. The
closure reads its captured `retryCount` binding (`w.captured`): it shows the
loading spinner when that is 0, and on failure retries via `setTimeout` when
that is `< 3`, bumping the state cell; otherwise it sets the terminal error.
The `finally` block always sets `isLoading` to false. -/
def fetchServersOnce (result : Except McpServiceError (List JsonVal)) (w : ViewWorld) :
    ViewWorld :=
  let w := { w with attempts := w.attempts + 1 }
  let w := if w.captured = 0 then setIsLoadingState w true else w
  let w := setErrorState w none
  match result with
  | .ok serverList =>
    let w := setServersState w serverList
    setIsLoadingState w false
  | .error _ =>
    if w.captured < 3 then
      let w := setRetryCountState w (w.retryCount + 1)
      let w := { w with timers := (timerSet w.timers).2 }
      let w := setErrorState w (some loadingMessage)
      setIsLoadingState w false
    else
      let w := setErrorState w (some terminalMessage)
      setIsLoadingState w false

/-- Mounting the component: `useState` initial values, then the effect body
runs once — `fetchServers` captures `retryCount = 0`, and the initial fetch
is scheduled with `setTimeout`; the cleanup closure captures that timer's
id. -/
def mountView : ViewWorld :=
  let w : ViewWorld :=
    { timers := ⟨0, []⟩, cleanupId := 0, servers := [], isLoading := true,
      error := none, retryCount := 0, captured := 0, disposed := false,
      updatesAfterDispose := 0, attempts := 0 }
  let s := timerSet w.timers
  { w with timers := s.2, cleanupId := s.1, captured := w.retryCount }

/-- Tearing the component down: React runs the effect cleanup, which is
`() => clearTimeout(timer)` for the initially scheduled timer only. -/
def teardownView (w : ViewWorld) : ViewWorld :=
  { w with disposed := true, timers := timerClear w.timers w.cleanupId }

/-- The earliest pending timer fires: it is removed from the table and its
callback — always `fetchServers` — runs, seeing outcome `result`. A fire
with no pending timer changes nothing. -/
def fireNext (result : Except McpServiceError (List JsonVal)) (w : ViewWorld) : ViewWorld :=
  match w.timers.pending with
  | [] => w
  | _ :: rest => fetchServersOnce result { w with timers := ⟨w.timers.nextId, rest⟩ }

/-- A fixed failure outcome for `mcpService.getServers()`, used to drive the
retry scenarios. -/
def fetchFailure : Except McpServiceError (List JsonVal) :=
  .error (.orig (.networkError "Failed to fetch"))

/-- The scenario of the spec's retry property: mount the component, then let
every scheduled fetch fire and fail, `n` times in a row. -/
def failTrace : Nat → ViewWorld
  | 0 => mountView
  | n + 1 => fireNext fetchFailure (failTrace n)

/-- Does a `requestAPI` result consist of a raised `NetworkError`? -/
def raisesNetworkFailure : Except ReqError DataVal → Bool
  | .error (.networkError _) => true
  | _ => false

/-- Does a `requestAPI` result consist of a raised `ResponseError`? -/
def raisesResponseFailure : Except ReqError DataVal → Bool
  | .error (.responseError _ _) => true
  | _ => false

/-- Did the underlying connection attempt throw? -/
def connectionThrew : FetchOutcome → Bool
  | .thrown _ => true
  | .response _ => false

/-- Was an HTTP response with a non-success status received? -/
def badStatusReceived : FetchOutcome → Bool
  | .thrown _ => false
  | .response r => !r.ok

/-! ## Theorems -/

/-- Closed form of every failing first probe after mount: after `n + 1`
consecutive fetch failures, the component has issued `n + 1` attempts, has a
single retry timer pending (never the initial timer's id 0), shows the
intermediate loading message, and — because the effect closure's captured
`retryCount` is still 0 — has bumped the `retryCount` cell to `n + 1`
without the closure ever observing it. -/
theorem failTrace_succ (n : Nat) :
    failTrace (n + 1) =
      { timers := ⟨n + 2, [n + 1]⟩, cleanupId := 0, servers := [],
        isLoading := false, error := some loadingMessage, retryCount := n + 1,
        captured := 0, disposed := false, updatesAfterDispose := 0,
        attempts := n + 1 } := by
  induction n with
  | zero => rfl
  | succ k ih =>
    show fireNext fetchFailure (failTrace (k + 1)) = _
    rw [ih]
    rfl

/-- C1: on a first-time call (cache `_hasMcp` still null),
`checkMcpAvailability` returns `false` if and only if the probe of
`mcp/servers` failed with a `ResponseError` of HTTP status 404; on probe
success, on a `NetworkError`, and on any other failure it returns `true`. -/
theorem checkMcpAvailability_first_false_iff_404 (probe : Except ReqError DataVal) :
    (checkMcpAvailability none probe).result = false ↔
      ∃ payload, probe = Except.error (ReqError.responseError 404 payload) := by
  cases probe with
  | ok d => simp [checkMcpAvailability]
  | error e =>
    cases e with
    | networkError m => simp [checkMcpAvailability]
    | responseError status payload =>
      by_cases h : status = 404
      · subst h
        simp [checkMcpAvailability]
      · simp [checkMcpAvailability, h]

/-- Witness for C1 at a concrete 404 probe outcome. -/
theorem checkMcpAvailability_first_false_iff_404_witness :
    (checkMcpAvailability none
      (Except.error (ReqError.responseError 404 (DataVal.text "Not Found")))).result = false :=
  (checkMcpAvailability_first_false_iff_404 _).mpr ⟨_, rfl⟩

/-- C2: once `_hasMcp` holds a recorded boolean `b`, any sequence of further
calls to `checkMcpAvailability` returns `b` every time, leaves the cache at
`b`, and issues zero network requests, whatever probe outcomes would have
been observed. -/
theorem checkMcpAvailability_memoized (b : Bool)
    (probes : List (Except ReqError DataVal)) :
    runChecks (some b) probes = (probes.map (fun _ => b), some b, 0) := by
  induction probes with
  | nil => rfl
  | cons p ps ih => simp [runChecks, checkMcpAvailability, ih]

/-- C3 (code bug): after 4 consecutive fetch failures the settings view has
not settled: a 5th attempt is still scheduled (timer id 4 pending), the
error shown is the intermediate loading message rather than the terminal
one, and the 5th attempt is in fact issued. The `retryCount` cell has
reached 4 while the closure's captured copy is still 0, which is why the
`retryCount < 3` guard never fails. -/
theorem mcpSettings_retry_unbounded :
    (failTrace 4).timers.pending = [4]
    ∧ (failTrace 4).error = some loadingMessage
    ∧ (failTrace 4).error ≠ some terminalMessage
    ∧ (failTrace 5).attempts = 5
    ∧ (failTrace 4).retryCount = 4
    ∧ (failTrace 4).captured = 0 :=
  ⟨rfl, rfl, by decide, rfl, rfl, rfl⟩

/-- C4: when `getServers`/`getCommands` fail, a failure carrying an HTTP
response with status 404 is converted to the distinguished
`Error('MCP not available')`, any other failure is re-thrown unchanged, and
a failure is never converted into a successful (empty) list. -/
theorem mcpService_failure_policy (e : ReqError) :
    ((∃ payload, e = ReqError.responseError 404 payload) →
      getServers (.error e) = .error .mcpNotAvailable
      ∧ getCommands (.error e) = .error .mcpNotAvailable)
    ∧ ((∀ payload, e ≠ ReqError.responseError 404 payload) →
      getServers (.error e) = .error (.orig e)
      ∧ getCommands (.error e) = .error (.orig e))
    ∧ (∀ xs, getServers (.error e) ≠ .ok xs ∧ getCommands (.error e) ≠ .ok xs) := by
  refine ⟨?_, ?_, ?_⟩
  · rintro ⟨payload, rfl⟩
    exact ⟨rfl, rfl⟩
  · intro h
    cases e with
    | networkError m => exact ⟨rfl, rfl⟩
    | responseError status payload =>
      have hs : status ≠ 404 := by
        intro hst
        exact h payload (by rw [hst])
      simp [getServers, getCommands, is404Error, hs]
  · intro xs
    cases e with
    | networkError m => simp [getServers, getCommands, is404Error]
    | responseError status payload =>
      by_cases hs : status = 404 <;>
        simp [getServers, getCommands, is404Error, hs]

/-- Witness for C4 at concrete 404 and non-404 failures. -/
theorem mcpService_failure_policy_witness :
    getServers (.error (ReqError.responseError 404 (DataVal.text "nf"))) =
      .error .mcpNotAvailable
    ∧ getCommands (.error (ReqError.networkError "down")) =
      .error (.orig (ReqError.networkError "down")) :=
  ⟨((mcpService_failure_policy _).1 ⟨_, rfl⟩).1,
   ((mcpService_failure_policy _).2.1 (fun payload h => by cases h)).2⟩

/-- C5: `executeCommand` never propagates a failure: every failure becomes a
result object with discriminant `'text'` and content
`"Error executing command: " ++` the failure's message, and a success is
returned unchanged. -/
theorem executeCommand_never_fails (d : DataVal) (e : ReqError) :
    executeCommand (.ok d) = d
    ∧ executeCommand (.error e) =
      DataVal.json (.obj [("type", .str "text"),
        ("content", .str ("Error executing command: " ++ errorMessage e))]) :=
  ⟨rfl, rfl⟩

/-- C6: on success of all three network interactions, the catalog built by
`autocompletion.commands` is exactly the specification's catalog: the static
commands (label `"/" + id + " "`) followed — only when MCP is available — by
the MCP commands (id `serverName`, label `"/" + serverName + " "`,
description falling back to `"MCP Server: " + serverName`), each group in
listing-received order, and the static list alone when MCP is unavailable. -/
theorem commandsCatalog_matches_spec (s : List ListSlashCommandsEntry)
    (avail : Bool) (m : List IMcpCommand) :
    commandsCatalog (.ok s) (.ok avail) (.ok m) = .ok (catalogSpec s avail m) := by
  cases avail with
  | true => rfl
  | false =>
    have h : catalogSpec s false m = s.map standardOption := by
      unfold catalogSpec
      simp only [Bool.false_eq_true, if_false, List.append_nil]
      rfl
    rw [h]
    rfl

/-- C7: a failure while fetching the static slash commands propagates out of
`autocompletion.commands` unchanged, whereas a failure of the availability
check or of the MCP command fetch is swallowed and the static-only list is
returned; with the static fetch succeeding, the builder never fails,
whatever the MCP tier does. -/
theorem commandsCatalog_error_policy (e eA : ReqError) (eM : McpServiceError)
    (s : List ListSlashCommandsEntry) (availRes : Except ReqError Bool)
    (mcpRes : Except McpServiceError (List IMcpCommand)) :
    commandsCatalog (.error e) availRes mcpRes = .error e
    ∧ commandsCatalog (.ok s) (.error eA) mcpRes = .ok (s.map standardOption)
    ∧ commandsCatalog (.ok s) (.ok true) (.error eM) = .ok (s.map standardOption)
    ∧ ∃ l, commandsCatalog (.ok s) availRes mcpRes = .ok l := by
  refine ⟨rfl, rfl, rfl, ?_⟩
  cases availRes with
  | error eA2 => exact ⟨_, rfl⟩
  | ok avail =>
    cases avail with
    | false => exact ⟨_, rfl⟩
    | true =>
      cases mcpRes with
      | error eM2 => exact ⟨_, rfl⟩
      | ok mcps => exact ⟨_, rfl⟩

/-- C8 counterexample: mount the view, let the initial fetch fail (which
schedules retry timer 1), then tear the view down. The cleanup clears only
the initial timer (id 0), so the retry timer is still pending after
disposal, and when it fires it performs 5 state-setter calls on the
disposed component. -/
theorem mcpSettings_teardown_misses_retry_timer :
    (teardownView (failTrace 1)).timers.pending = [1]
    ∧ (teardownView (failTrace 1)).disposed = true
    ∧ (fireNext fetchFailure (teardownView (failTrace 1))).updatesAfterDispose = 5 :=
  ⟨rfl, rfl, rfl⟩

/-- C8 amended: teardown cancels exactly the timer whose id the cleanup
closure captured — the initially scheduled fetch. Tearing down a freshly
mounted view leaves no pending timer, but after any number of failures the
scheduled retry timer survives teardown. -/
theorem teardownView_clears_only_initial_timer :
    (∀ w : ViewWorld,
      (teardownView w).timers.pending = w.timers.pending.filter (fun j => j ≠ w.cleanupId))
    ∧ (teardownView mountView).timers.pending = []
    ∧ ∀ n : Nat, (teardownView (failTrace (n + 1))).timers.pending = [n + 1] := by
  refine ⟨fun w => rfl, rfl, ?_⟩
  intro n
  rw [failTrace_succ]
  simp [teardownView, timerClear]

/-- C9: the transport raises `NetworkError` exactly when the connection
attempt throws and `ResponseError` exactly when a non-success HTTP response
is received; a non-empty body that fails to parse as JSON raises no parse
error — the raw text is the returned value on success and the error payload
on failure. -/
theorem requestAPI_error_classification :
    (∀ o : FetchOutcome,
      raisesNetworkFailure (requestAPI o) = connectionThrew o
      ∧ raisesResponseFailure (requestAPI o) = badStatusReceived o)
    ∧ (∀ r : HttpResponse, r.parsed = none → 0 < r.body.length →
      (r.ok = true → requestAPI (.response r) = .ok (.text r.body))
      ∧ (r.ok = false →
        requestAPI (.response r) =
          .error (.responseError r.status (.text r.body)))) := by
  constructor
  · intro o
    cases o with
    | thrown m => exact ⟨rfl, rfl⟩
    | response r =>
      obtain ⟨ok, status, body, parsed⟩ := r
      cases ok <;>
        simp [requestAPI, raisesNetworkFailure, raisesResponseFailure,
          connectionThrew, badStatusReceived]
  · intro r hp hb
    constructor
    · intro hok
      simp [requestAPI, hp, hok, hb]
    · intro hok
      simp [requestAPI, hp, hok, hb, errPayload, messageField]

/-- Witness for C9 at a concrete failed response with a non-JSON body. -/
theorem requestAPI_error_classification_witness :
    requestAPI (.response ⟨false, 500, "oops", none⟩) =
      .error (.responseError 500 (.text "oops")) :=
  (requestAPI_error_classification.2 ⟨false, 500, "oops", none⟩ rfl (by decide)).2 rfl

/-- C10: on a successful response whose parsed JSON value is not an array,
`getServers` and `getCommands` return the empty list, and on an array they
return exactly its elements — the success result is always an array. -/
theorem mcpService_success_always_array (d : DataVal) (xs : List JsonVal) :
    ((∀ ys, d ≠ DataVal.json (.arr ys)) →
      getServers (.ok d) = .ok [] ∧ getCommands (.ok d) = .ok [])
    ∧ (getServers (.ok (.json (.arr xs))) = .ok xs
      ∧ getCommands (.ok (.json (.arr xs))) = .ok xs) := by
  refine ⟨?_, rfl, rfl⟩
  intro h
  cases d with
  | text s => exact ⟨rfl, rfl⟩
  | json j =>
    cases j with
    | arr ys => exact absurd rfl (h ys)
    | null => exact ⟨rfl, rfl⟩
    | bool b => exact ⟨rfl, rfl⟩
    | num n => exact ⟨rfl, rfl⟩
    | str s => exact ⟨rfl, rfl⟩
    | obj fields => exact ⟨rfl, rfl⟩

/-- Witness for C10 at a concrete non-array success value. -/
theorem mcpService_success_always_array_witness :
    getServers (.ok (DataVal.text "not json")) = .ok [] :=
  ((mcpService_success_always_array (DataVal.text "not json") []).1
    (fun _ h => nomatch h)).1
